import Mathlib

/-!
Verification development for the vscode_cobol extension source
(src/src/extension.ts plus the appended usage-provider module).

The TypeScript is shallowly embedded: filesystem and host-editor state is
passed explicitly through environment records, and each modelled function
mirrors the control flow of the corresponding source function line by line.
Logging calls are dropped, as they do not affect any modelled output.
-/

namespace VsCobol

/-- Result of a successful `fs.statSync` call, as far as the extension
inspects it: a directory, a regular file, or some other node kind. -/
inductive StatKind
  | dir
  | file
  | other
deriving DecidableEq

/-- Explicit stand-in for the ambient filesystem and the path helpers the
extension imports. `stat p = none` models `fs.statSync` throwing.
`checkTimeMS p` is the wall-clock time in milliseconds that the
`isDirectory` probe of `p` takes (the source measures it with
`performance_now()` around the call). `isDirectPath` and `isNetworkPath`
come from the module `opencopybook`, and `pathJoin` is `path.join`; they
are kept abstract here and instantiated where a concrete run is needed. -/
structure DirEnv where
  stat : String → Option StatKind
  checkTimeMS : String → Nat
  isDirectPath : String → Bool
  isNetworkPath : String → Bool
  pathJoin : String → String → String

/-- `isDirectory` (extension.ts lines 53-64): true when `statSync`
succeeds and reports a directory; any exception yields false. -/
def isDirectory (env : DirEnv) (sdir : String) : Bool :=
  match env.stat sdir with
  | some StatKind.dir => true
  | some _ => false
  | none => false

/-- `isFile` (extension.ts lines 66-77): true when `statSync` succeeds and
reports a regular file; any exception yields false. -/
def isFile (env : DirEnv) (sdir : String) : Bool :=
  match env.stat sdir with
  | some StatKind.file => true
  | some _ => false
  | none => false

/-- The configuration inputs read by `initExtensionSearchPaths`:
the `disable_unc_copybooks_directories` setting, the configured copybook
directories (`VSCOBOLConfiguration.getCopybookdirs_defaults()`), and the
workspace folder paths (`getWorkspaceFolders()`, `none` when there is no
open workspace). -/
structure SearchConfig where
  disable_unc_copybooks_directories : Bool
  copybookdirs : List String
  workspaceFolders : Option (List String)

/-- Which list (if any) the step-1 loop of `initExtensionSearchPaths`
pushes a configured directory onto. -/
inductive DirOutcome
  | toSearch
  | toInvalid
  | skipped
deriving DecidableEq

/-- Body of the step-1 loop of `initExtensionSearchPaths`
(extension.ts lines 182-211): a UNC path is marked invalid when the
setting disables UNC directories; otherwise a direct path is probed with
`isDirectory` and kept only when the probe reports a directory within
2000ms (`totalTimeInMS <= 2000`); non-direct paths are left untouched by
step 1. The workspace-membership check at lines 189-195 only logs. -/
def classifyDirectDir (env : DirEnv) (cfg : SearchConfig) (ddir : String) : DirOutcome :=
  if cfg.disable_unc_copybooks_directories && env.isNetworkPath ddir then
    DirOutcome.toInvalid
  else if env.isDirectPath ddir then
    if isDirectory env ddir then
      if env.checkTimeMS ddir ≤ 2000 then DirOutcome.toSearch else DirOutcome.toInvalid
    else DirOutcome.toInvalid
  else DirOutcome.skipped

/-- Directories pushed onto `fileSearchDirectory` by step 1, in order. -/
def step1SearchDirs (env : DirEnv) (cfg : SearchConfig) : List String :=
  cfg.copybookdirs.filter (fun d => classifyDirectDir env cfg d == DirOutcome.toSearch)

/-- Directories pushed onto `invalidSearchDirectory` by step 1, in order. -/
def step1InvalidDirs (env : DirEnv) (cfg : SearchConfig) : List String :=
  cfg.copybookdirs.filter (fun d => classifyDirectDir env cfg d == DirOutcome.toInvalid)

/-- Step 2 of `initExtensionSearchPaths` (extension.ts lines 214-243),
restricted to one workspace folder: the folder itself is pushed onto the
search list, then every non-direct configured directory is joined below
the folder and pushed onto the search list when `isDirectory` holds. -/
def folderSearchDirs (env : DirEnv) (cfg : SearchConfig) (folder : String) : List String :=
  folder :: cfg.copybookdirs.filterMap (fun extdir =>
    if env.isDirectPath extdir then none
    else
      let sdir := env.pathJoin folder extdir
      if isDirectory env sdir then some sdir else none)

/-- The joined directories that step 2 pushes onto the invalid list for
one workspace folder: those for which `isDirectory` fails. -/
def folderInvalidDirs (env : DirEnv) (cfg : SearchConfig) (folder : String) : List String :=
  cfg.copybookdirs.filterMap (fun extdir =>
    if env.isDirectPath extdir then none
    else
      let sdir := env.pathJoin folder extdir
      if isDirectory env sdir then none else some sdir)

/-- Directories pushed onto `fileSearchDirectory` by step 2: every
workspace folder followed by its qualifying joined directories; empty
when no workspace is open. -/
def step2SearchDirs (env : DirEnv) (cfg : SearchConfig) : List String :=
  match cfg.workspaceFolders with
  | none => []
  | some ws => ws.flatMap (folderSearchDirs env cfg)

/-- Directories pushed onto `invalidSearchDirectory` by step 2. -/
def step2InvalidDirs (env : DirEnv) (cfg : SearchConfig) : List String :=
  match cfg.workspaceFolders with
  | none => []
  | some ws => ws.flatMap (folderInvalidDirs env cfg)

/-- Contents of `fileSearchDirectory` after steps 1 and 2, before the
final duplicate-removing filter (extension.ts line 245). -/
def rawFileSearchDirectory (env : DirEnv) (cfg : SearchConfig) : List String :=
  step1SearchDirs env cfg ++ step2SearchDirs env cfg

/-- Contents of `invalidSearchDirectory` after steps 1 and 2, before the
final duplicate-removing filter (extension.ts line 246). -/
def rawInvalidSearchDirectory (env : DirEnv) (cfg : SearchConfig) : List String :=
  step1InvalidDirs env cfg ++ step2InvalidDirs env cfg

/-- The JS idiom `arr.filter((elem, pos) => arr.indexOf(elem) === pos)`
used at extension.ts lines 245-246: walk the array with its position,
keeping an element exactly when its first index in the original array is
the current position. `orig` stays fixed at the original array. -/
def jsDedupAux (orig : List String) : List String → Nat → List String
  | [], _ => []
  | x :: xs, i =>
    if orig.indexOf x = i then x :: jsDedupAux orig xs (i + 1)
    else jsDedupAux orig xs (i + 1)

/-- `l.filter((elem, pos) => l.indexOf(elem) === pos)`. -/
def jsDedup (l : List String) : List String :=
  jsDedupAux l l 0

/-- `initExtensionSearchPaths` (extension.ts lines 167-247), returning the
final `(fileSearchDirectory, invalidSearchDirectory)` pair. The
extension-conflict message handling at lines 169-173 touches neither
list. -/
def initExtensionSearchPaths (env : DirEnv) (cfg : SearchConfig) : List String × List String :=
  (jsDedup (rawFileSearchDirectory env cfg), jsDedup (rawInvalidSearchDirectory env cfg))

/-- `getCombinedCopyBookSearchPath` (extension.ts lines 49-51): returns
the final `fileSearchDirectory`. -/
def getCombinedCopyBookSearchPath (env : DirEnv) (cfg : SearchConfig) : List String :=
  (initExtensionSearchPaths env cfg).1

/-- Reference form of first-occurrence deduplication: scan left to right
carrying the prefix already seen, keeping an element exactly on its first
occurrence. Used to characterise `jsDedup`. -/
def firstOccAux (seen : List String) : List String → List String
  | [] => []
  | y :: t =>
    if y ∈ seen then firstOccAux (seen ++ [y]) t
    else y :: firstOccAux (seen ++ [y]) t

/-- JS `String.prototype.toLowerCase()` modelled character-wise over the
string data (the names involved are ASCII COBOL identifiers). -/
def jsToLowerCase (s : String) : String :=
  ⟨s.data.map Char.toLower⟩

/-- JS `String.prototype.startsWith(p)` modelled character-wise over the
string data. -/
def jsStartsWith (s p : String) : Bool :=
  p.data.isPrefixOf s.data

/-- The fields of a `COBOLToken` (from cobolquickparse.ts, outside the
sources under review) that `updateDiagnostics` reads: position, display
name, owning file, and the procedure-division flag. -/
structure Token where
  startLine : Nat
  startColumn : Nat
  tokenName : String
  filename : String
  inProcedureDivision : Bool
deriving DecidableEq

/-- The parts of a `COBOLQuickParse` result consumed by
`CobolUsageProvider`: the filename the parse was built for and the
paragraph and section tables, each an insertion-ordered map from declared
name to its token. -/
structure QuickParseData where
  filename : String
  paragraphs : List (String × Token)
  sections : List (String × Token)
deriving DecidableEq

/-- `SharedSourceReferences.targetReferences`: the keys of the map of
referenced target names, stored lowercased. -/
structure SharedSourceReferences where
  targetReferences : List String
deriving DecidableEq

/-- A `vscode.Diagnostic` as built by `updateDiagnostics`: the range
endpoints, the message, and the structured code (`undefined` modelled as
`none`). Severity is the fixed `this.diagCollect` and is omitted. -/
structure Diagnostic where
  startLine : Nat
  startColumn : Nat
  endLine : Nat
  endColumn : Nat
  message : String
  code : Option String
deriving DecidableEq

/-- The diagnostic built for an unreferenced paragraph
(usage provider lines 1072-1075): range from the token start over
`tokenName.length` columns, message `key + " paragraph is not
referenced"`, code `"noref(" + key + ")"`. -/
def makeParagraphDiag (key : String) (token : Token) : Diagnostic :=
  { startLine := token.startLine
    startColumn := token.startColumn
    endLine := token.startLine
    endColumn := token.startColumn + token.tokenName.length
    message := key ++ " paragraph is not referenced"
    code := some ("noref(" ++ key ++ ")") }

/-- The diagnostic built for an unreferenced section
(usage provider lines 1094-1097). -/
def makeSectionDiag (key : String) (token : Token) : Diagnostic :=
  { startLine := token.startLine
    startColumn := token.startColumn
    endLine := token.startLine
    endColumn := token.startColumn + token.tokenName.length
    message := key ++ " section is not referenced"
    code := some ("noref(" ++ key ++ ")") }

/-- Body of the paragraph loop of `updateDiagnostics` (lines 1069-1088):
lowercase the declared name, emit a diagnostic against the token file
exactly when `targetReferences` lacks the lowered name. -/
def paragraphDiagEntry (refs : SharedSourceReferences) :
    String × Token → Option (String × Diagnostic)
  | (key, token) =>
    if jsToLowerCase key ∈ refs.targetReferences then none
    else some (token.filename, makeParagraphDiag key token)

/-- Body of the section loop of `updateDiagnostics` (lines 1090-1112):
as for paragraphs, but only for tokens inside the procedure division. -/
def sectionDiagEntry (refs : SharedSourceReferences) :
    String × Token → Option (String × Diagnostic)
  | (key, token) =>
    if token.inProcedureDivision then
      if jsToLowerCase key ∈ refs.targetReferences then none
      else some (token.filename, makeSectionDiag key token)
    else none

/-- All (filename, diagnostic) pairs the paragraph loop pushes, in loop
order. -/
def paragraphDiags (qp : QuickParseData) (refs : SharedSourceReferences) :
    List (String × Diagnostic) :=
  qp.paragraphs.filterMap (paragraphDiagEntry refs)

/-- All (filename, diagnostic) pairs the section loop pushes, in loop
order. -/
def sectionDiags (qp : QuickParseData) (refs : SharedSourceReferences) :
    List (String × Diagnostic) :=
  qp.sections.filterMap (sectionDiagEntry refs)

/-- The complete emission sequence of `updateDiagnostics`
(lines 1069-1112): paragraph diagnostics then section diagnostics. The
source groups these by filename into `diagRefs` before handing them to
the collection; the grouping reorders but neither adds nor drops
entries. -/
def updateDiagnosticsList (qp : QuickParseData) (refs : SharedSourceReferences) :
    List (String × Diagnostic) :=
  paragraphDiags qp refs ++ sectionDiags qp refs

/-- The code action pushed by `CobolUsageActionFixer.provideCodeActions`;
only the fields the claims mention are kept: the title built from the
diagnostic message (the source wraps the message in single quotes, which
are immaterial and left out here) and the diagnostic code passed through
as the command argument. -/
structure CodeAction where
  title : String
  forCode : Option String
deriving DecidableEq

/-- Body of the loop of `provideCodeActions` (usage provider lines
1019-1033): skip a diagnostic whose code is defined and does not start
with "noref"; otherwise push a comment-out action. -/
def actionFor (d : Diagnostic) : Option CodeAction :=
  match d.code with
  | some c =>
    if jsStartsWith c "noref" then some { title := "Comment out " ++ d.message, forCode := some c }
    else none
  | none => some { title := "Comment out " ++ d.message, forCode := none }

/-- `CobolUsageActionFixer.provideCodeActions` (lines 1017-1035) over the
context diagnostics. -/
def provideCodeActions (diags : List Diagnostic) : List CodeAction :=
  diags.filterMap actionFor

/-- The document fields `setupCOBOLQuickParse` consults. -/
structure VsDocument where
  fileName : String
  version : Nat
deriving DecidableEq

/-- Modelled from the spec: the `COBOLQuickParse` scanner and
`SharedSourceReferences` population live in cobolquickparse.ts, which is
not among the sources under review. Spec section 8 states that
re-scanning unchanged source is deterministic, so the scan is modelled as
a pure function from the document to the symbol tables and the reference
set. -/
structure ScanEnv where
  scanParagraphs : VsDocument → List (String × Token)
  scanSections : VsDocument → List (String × Token)
  scanTargetReferences : VsDocument → List String

/-- `new COBOLQuickParse(file, document.fileName, ...)` at line 1135: the
parse is built from the document and records `document.fileName` as its
filename. -/
def mkQuickParse (env : ScanEnv) (document : VsDocument) : QuickParseData :=
  { filename := document.fileName
    paragraphs := env.scanParagraphs document
    sections := env.scanSections document }

/-- `new SharedSourceReferences()` at line 1134, populated by the parse. -/
def mkSharedSourceReferences (env : ScanEnv) (document : VsDocument) :
    SharedSourceReferences :=
  { targetReferences := env.scanTargetReferences document }

/-- The mutable fields of `CobolUsageProvider` used by
`setupCOBOLQuickParse` (lines 1121-1123). -/
structure UsageState where
  current : Option QuickParseData
  currentVersion : Option Nat
  sourceRefs : Option SharedSourceReferences
deriving DecidableEq

/-- Lines 1127-1129 of `setupCOBOLQuickParse`: the cached parse after the
filename-change eviction, `undefined` when the state held none or the
cached filename differs from the document. -/
def clearIfRenamed (s : UsageState) (document : VsDocument) : Option QuickParseData :=
  match s.current with
  | some qp => if qp.filename ≠ document.fileName then none else some qp
  | none => none

/-- `CobolUsageProvider.setupCOBOLQuickParse` (lines 1126-1139): drop the
cached parse when the filename changed, then rebuild parse and reference
set when there is no cached parse or the document version changed;
otherwise leave all three fields as they are. -/
def setupCOBOLQuickParse (env : ScanEnv) (s : UsageState) (document : VsDocument) :
    UsageState :=
  if clearIfRenamed s document = none ∨ s.currentVersion ≠ some document.version then
    { current := some (mkQuickParse env document)
      currentVersion := some document.version
      sourceRefs := some (mkSharedSourceReferences env document) }
  else
    { current := clearIfRenamed s document
      currentVersion := s.currentVersion
      sourceRefs := s.sourceRefs }

/-- The cache operations of the in-memory global cache helper invoked by
`activate` and `deactivateAsync`. -/
inductive CacheOp
  | loadGlobalSymbolCaches
  | loadGlobalFileCache
  | saveGlobalCaches
deriving DecidableEq

/-- The configuration consulted for cache lifecycle:
`VSQuickCOBOLParse.getCacheDirectory()` (null modelled as `none`) and
`VSCOBOLConfiguration.isCachingEnabled()`. -/
structure CacheConfig where
  cacheDirectory : Option String
  cachingEnabled : Bool

/-- The cache operations performed by `activate` (extension.ts lines
911-916): load the global symbol and file caches exactly when the cache
directory is non-null and non-empty. -/
def activateCacheOps (cfg : CacheConfig) : List CacheOp :=
  match cfg.cacheDirectory with
  | some cacheDirectory =>
    if cacheDirectory.length > 0 then
      [CacheOp.loadGlobalSymbolCaches, CacheOp.loadGlobalFileCache]
    else []
  | none => []

/-- The cache operations performed by `deactivateAsync` (extension.ts
lines 941-946): save the global caches exactly when caching is
enabled. -/
def deactivateCacheOps (cfg : CacheConfig) : List CacheOp :=
  if cfg.cachingEnabled then [CacheOp.saveGlobalCaches] else []

/-- Modelled from the spec: `isDirectPath` from opencopybook.ts is not
among the sources under review; the spec calls the affected entries
"direct (absolute) paths", so a path is treated as direct exactly when it
is absolute. Used only to instantiate concrete runs. -/
def specIsDirectPath (s : String) : Bool :=
  jsStartsWith s "/"

/-- Modelled from the spec: `path.join` of the Node path module for the
simple shapes appearing in the concrete runs below: parent and relative
name joined by one separator. -/
def specPathJoin (a b : String) : String :=
  a ++ "/" ++ b

/-- Concrete filesystem for the search-path counterexamples: `/w` and
`/w/sub` exist and are directories; probing `/w/sub` takes 3000ms. -/
def cexEnv : DirEnv :=
  { stat := fun s => if s = "/w/sub" ∨ s = "/w" then some StatKind.dir else none
    checkTimeMS := fun s => if s = "/w/sub" then 3000 else 0
    isDirectPath := specIsDirectPath
    isNetworkPath := fun _ => false
    pathJoin := specPathJoin }

/-- Concrete configuration for the search-path counterexamples: the
absolute directory `/w/sub` and the relative directory `sub` are
configured, and `/w` is the only workspace folder, so `/w/sub` also
arises as a workspace join. -/
def cexCfg : SearchConfig :=
  { disable_unc_copybooks_directories := false
    copybookdirs := ["/w/sub", "sub"]
    workspaceFolders := some ["/w"] }

/-- Concrete token for the diagnostics runs: a paragraph declared outside
the procedure division. -/
def cexToken : Token :=
  { startLine := 4
    startColumn := 7
    tokenName := "Para-1"
    filename := "prog.cbl"
    inProcedureDivision := false }

/-- Concrete parse table holding only the paragraph above. -/
def cexQp : QuickParseData :=
  { filename := "prog.cbl"
    paragraphs := [("Para-1", cexToken)]
    sections := [] }

/-- Concrete empty reference set: nothing is referenced. -/
def cexRefs : SharedSourceReferences :=
  { targetReferences := [] }

/-- Concrete diagnostic with an undefined code, as foreign diagnostics in
the same collection may carry. -/
def cexDiagNoCode : Diagnostic :=
  { startLine := 0
    startColumn := 0
    endLine := 0
    endColumn := 1
    message := "unrelated diagnostic"
    code := none }

/-- Concrete scan environment for the witness runs: every document scans
to the fixed tables above. -/
def wScanEnv : ScanEnv :=
  { scanParagraphs := fun _ => [("Para-1", cexToken)]
    scanSections := fun _ => []
    scanTargetReferences := fun _ => [] }

/-- Concrete document for the witness runs. -/
def wDocument : VsDocument :=
  { fileName := "prog.cbl", version := 3 }

/-- Concrete usage-provider state holding a parse of `wDocument`. -/
def wState : UsageState :=
  { current := some (mkQuickParse wScanEnv wDocument)
    currentVersion := some 3
    sourceRefs := some (mkSharedSourceReferences wScanEnv wDocument) }

/-- Concrete filesystem for witness runs: `/fast` and `/slow` are
directories, probing `/slow` takes 2500ms. -/
def wDirEnv : DirEnv :=
  { stat := fun s => if s = "/fast" ∨ s = "/slow" then some StatKind.dir else none
    checkTimeMS := fun s => if s = "/slow" then 2500 else 10
    isDirectPath := specIsDirectPath
    isNetworkPath := fun _ => false
    pathJoin := specPathJoin }

/-- Concrete configuration for witness runs, with no open workspace. -/
def wDirCfg : SearchConfig :=
  { disable_unc_copybooks_directories := false
    copybookdirs := ["/fast", "/slow"]
    workspaceFolders := none }

/-- Concrete environment for the UNC witness run: network paths are
those starting with two backslashes. -/
def wUncEnv : DirEnv :=
  { stat := fun _ => none
    checkTimeMS := fun _ => 0
    isDirectPath := specIsDirectPath
    isNetworkPath := fun s => jsStartsWith s "\\\\"
    pathJoin := specPathJoin }

/-- Concrete configuration for the UNC witness run: one UNC directory,
UNC directories disabled. -/
def wUncCfg : SearchConfig :=
  { disable_unc_copybooks_directories := true
    copybookdirs := ["\\\\srv\\share"]
    workspaceFolders := none }

/-- Concrete environment for the stat-failure witness run: every stat
call throws. -/
def wFailEnv : DirEnv :=
  { stat := fun _ => none
    checkTimeMS := fun _ => 0
    isDirectPath := specIsDirectPath
    isNetworkPath := fun _ => false
    pathJoin := specPathJoin }

/-- Concrete configuration for the stat-failure witness run. -/
def wFailCfg : SearchConfig :=
  { disable_unc_copybooks_directories := false
    copybookdirs := ["/gone"]
    workspaceFolders := none }

/-- Concrete reference set holding the lowercased name of the paragraph
of `cexQp`, as a PERFORM targeting it would produce. -/
def wRefs : SharedSourceReferences :=
  { targetReferences := ["para-1"] }

/-- Concrete parse table declaring the same paragraph under a different
letter case. -/
def wQp2 : QuickParseData :=
  { filename := "prog.cbl"
    paragraphs := [("PARA-1", cexToken)]
    sections := [] }

/-- Concrete section token inside the procedure division. -/
def wSecToken : Token :=
  { startLine := 9
    startColumn := 7
    tokenName := "Sec-1"
    filename := "prog.cbl"
    inProcedureDivision := true }

/-- Concrete parse table declaring one procedure-division section. -/
def wSecQp : QuickParseData :=
  { filename := "prog.cbl"
    paragraphs := []
    sections := [("Sec-1", wSecToken)] }

/-- Concrete cache configuration with a configured directory and caching
enabled. -/
def wCacheCfg : CacheConfig :=
  { cacheDirectory := some "/cachedir"
    cachingEnabled := true }

/-- The JS positional dedup filter agrees with the seen-prefix scan: the
position argument tracks the length of the prefix already consumed. -/
theorem jsDedupAux_eq_firstOccAux :
    ∀ (xs pre : List String), jsDedupAux (pre ++ xs) xs pre.length = firstOccAux pre xs := by
  intro xs
  induction xs with
  | nil => intro pre; rfl
  | cons y t ih =>
    intro pre
    by_cases hy : y ∈ pre
    · have hlt : (pre ++ y :: t).indexOf y < pre.length := by
        rw [List.indexOf_append_of_mem hy]
        exact List.indexOf_lt_length.mpr hy
      have hne : ¬((pre ++ y :: t).indexOf y = pre.length) := Nat.ne_of_lt hlt
      simp only [jsDedupAux, if_neg hne, firstOccAux, if_pos hy]
      have hre : pre ++ y :: t = (pre ++ [y]) ++ t := by simp
      have hlen : pre.length + 1 = (pre ++ [y]).length := by simp
      rw [hre, hlen]
      exact ih (pre ++ [y])
    · have heq : (pre ++ y :: t).indexOf y = pre.length := by
        rw [List.indexOf_append_of_not_mem hy, List.indexOf_cons_self]
        omega
      simp only [jsDedupAux, if_pos heq, firstOccAux, if_neg hy]
      have hre : pre ++ y :: t = (pre ++ [y]) ++ t := by simp
      have hlen : pre.length + 1 = (pre ++ [y]).length := by simp
      rw [hre, hlen]
      exact congrArg (y :: ·) (ih (pre ++ [y]))

/-- `jsDedup` is the first-occurrence scan started with nothing seen. -/
theorem jsDedup_eq_firstOccAux (l : List String) : jsDedup l = firstOccAux [] l := by
  have h := jsDedupAux_eq_firstOccAux l []
  simpa [jsDedup] using h

/-- Membership in the first-occurrence scan: present in the remainder and
not already seen. -/
theorem mem_firstOccAux :
    ∀ (xs seen : List String) (z : String),
      z ∈ firstOccAux seen xs ↔ z ∈ xs ∧ z ∉ seen := by
  intro xs
  induction xs with
  | nil => intro seen z; simp [firstOccAux]
  | cons y t ih =>
    intro seen z
    by_cases hy : y ∈ seen
    · simp only [firstOccAux, if_pos hy, ih, List.mem_append, List.mem_singleton,
        List.mem_cons, List.not_mem_nil, or_false]
      constructor
      · rintro ⟨hzt, hz⟩
        exact ⟨Or.inr hzt, fun hs => hz (Or.inl hs)⟩
      · rintro ⟨hzy | hzt, hzs⟩
        · exact absurd (by rwa [hzy]) hzs
        · exact ⟨hzt, fun h => h.elim hzs (fun hzy => hzs (by rwa [hzy]))⟩
    · simp only [firstOccAux, if_neg hy, List.mem_cons, ih, List.mem_append,
        List.mem_singleton, List.not_mem_nil, or_false]
      constructor
      · rintro (rfl | ⟨hzt, hz⟩)
        · exact ⟨Or.inl rfl, hy⟩
        · exact ⟨Or.inr hzt, fun hs => hz (Or.inl hs)⟩
      · rintro ⟨rfl | hzt, hzs⟩
        · exact Or.inl rfl
        · by_cases hzy : z = y
          · exact Or.inl hzy
          · exact Or.inr ⟨hzt, fun h => h.elim hzs hzy⟩

/-- The first-occurrence scan never repeats an element. -/
theorem nodup_firstOccAux :
    ∀ (xs seen : List String), (firstOccAux seen xs).Nodup := by
  intro xs
  induction xs with
  | nil => intro seen; simp [firstOccAux]
  | cons y t ih =>
    intro seen
    by_cases hy : y ∈ seen
    · simpa only [firstOccAux, if_pos hy] using ih (seen ++ [y])
    · simp only [firstOccAux, if_neg hy, List.nodup_cons]
      refine ⟨fun hmem => ?_, ih (seen ++ [y])⟩
      have h := (mem_firstOccAux t (seen ++ [y]) y).1 hmem
      simp at h

/-- The first-occurrence scan preserves the relative order of first
occurrences: two distinct kept elements compare the same way by index in
the scanned list and in the output. -/
theorem indexOf_lt_firstOccAux :
    ∀ (xs seen : List String) (x y : String), x ≠ y →
      x ∈ firstOccAux seen xs → y ∈ firstOccAux seen xs →
      (xs.indexOf x < xs.indexOf y ↔
        (firstOccAux seen xs).indexOf x < (firstOccAux seen xs).indexOf y) := by
  intro xs
  induction xs with
  | nil => intro seen x y hxy hx hy; simp [firstOccAux] at hx
  | cons h t ih =>
    intro seen x y hxy hx hy
    by_cases hh : h ∈ seen
    · simp only [firstOccAux, if_pos hh] at hx hy ⊢
      have hxmem := (mem_firstOccAux t (seen ++ [h]) x).1 hx
      have hymem := (mem_firstOccAux t (seen ++ [h]) y).1 hy
      have hxh : h ≠ x := by
        intro e; apply hxmem.2; simp [e]
      have hyh : h ≠ y := by
        intro e; apply hymem.2; simp [e]
      rw [List.indexOf_cons_ne t hxh, List.indexOf_cons_ne t hyh,
        Nat.succ_lt_succ_iff]
      exact ih (seen ++ [h]) x y hxy hx hy
    · simp only [firstOccAux, if_neg hh] at hx hy ⊢
      by_cases hxh : x = h
      · subst hxh
        have hyx : x ≠ y := hxy
        have hymem : y ∈ firstOccAux (seen ++ [x]) t := by
          rcases List.mem_cons.mp hy with rfl | hmem
          · exact absurd rfl hyx
          · exact hmem
        have hyt : y ∈ t := ((mem_firstOccAux t (seen ++ [x]) y).1 hymem).1
        have hyx2 : x ≠ y := hxy
        rw [List.indexOf_cons_self, List.indexOf_cons_ne t hyx2,
          List.indexOf_cons_self, List.indexOf_cons_ne _ hyx2]
        simp [Nat.succ_pos]
      · by_cases hyh : y = h
        · subst hyh
          have hxmem : x ∈ firstOccAux (seen ++ [y]) t := by
            rcases List.mem_cons.mp hx with rfl | hmem
            · exact absurd rfl hxy
            · exact hmem
          have hyx : y ≠ x := fun e => hxy e.symm
          rw [List.indexOf_cons_self, List.indexOf_cons_ne t hyx,
            List.indexOf_cons_self, List.indexOf_cons_ne _ hyx]
          simp
        · have hh2x : h ≠ x := fun e => hxh e.symm
          have hh2y : h ≠ y := fun e => hyh e.symm
          have hxmem : x ∈ firstOccAux (seen ++ [h]) t := by
            rcases List.mem_cons.mp hx with rfl | hmem
            · exact absurd rfl hxh
            · exact hmem
          have hymem : y ∈ firstOccAux (seen ++ [h]) t := by
            rcases List.mem_cons.mp hy with rfl | hmem
            · exact absurd rfl hyh
            · exact hmem
          rw [List.indexOf_cons_ne t hh2x, List.indexOf_cons_ne t hh2y,
            List.indexOf_cons_ne _ hh2x, List.indexOf_cons_ne _ hh2y,
            Nat.succ_lt_succ_iff, Nat.succ_lt_succ_iff]
          exact ih (seen ++ [h]) x y hxy hxmem hymem

/-- `jsDedup` keeps exactly the elements of its input. -/
theorem mem_jsDedup (l : List String) (z : String) : z ∈ jsDedup l ↔ z ∈ l := by
  rw [jsDedup_eq_firstOccAux]
  simp [mem_firstOccAux]

/-- `jsDedup` output has no duplicates. -/
theorem jsDedup_nodup (l : List String) : (jsDedup l).Nodup := by
  rw [jsDedup_eq_firstOccAux]
  exact nodup_firstOccAux l []

/-- `jsDedup` preserves the relative order of first occurrences. -/
theorem jsDedup_indexOf_lt (l : List String) (x y : String) (hxy : x ≠ y)
    (hx : x ∈ jsDedup l) (hy : y ∈ jsDedup l) :
    l.indexOf x < l.indexOf y ↔ (jsDedup l).indexOf x < (jsDedup l).indexOf y := by
  rw [jsDedup_eq_firstOccAux] at hx hy ⊢
  exact indexOf_lt_firstOccAux l [] x y hxy hx hy

/-- Membership in the step-1 search contribution, by the loop body. -/
theorem mem_step1SearchDirs (env : DirEnv) (cfg : SearchConfig) (d : String) :
    d ∈ step1SearchDirs env cfg ↔
      d ∈ cfg.copybookdirs ∧ classifyDirectDir env cfg d = DirOutcome.toSearch := by
  simp [step1SearchDirs, List.mem_filter]

/-- Membership in the step-1 invalid contribution, by the loop body. -/
theorem mem_step1InvalidDirs (env : DirEnv) (cfg : SearchConfig) (d : String) :
    d ∈ step1InvalidDirs env cfg ↔
      d ∈ cfg.copybookdirs ∧ classifyDirectDir env cfg d = DirOutcome.toInvalid := by
  simp [step1InvalidDirs, List.mem_filter]

/-- A UNC directory with the disable setting on is always classified
invalid. -/
theorem classify_unc (env : DirEnv) (cfg : SearchConfig) (ddir : String)
    (hset : cfg.disable_unc_copybooks_directories = true)
    (hnet : env.isNetworkPath ddir = true) :
    classifyDirectDir env cfg ddir = DirOutcome.toInvalid := by
  simp [classifyDirectDir, hset, hnet]

/-- A direct directory passing all checks is classified for the search
list. -/
theorem classify_fast_dir (env : DirEnv) (cfg : SearchConfig) (ddir : String)
    (hunc : ¬(cfg.disable_unc_copybooks_directories = true ∧ env.isNetworkPath ddir = true))
    (hdp : env.isDirectPath ddir = true)
    (hdir : isDirectory env ddir = true)
    (ht : env.checkTimeMS ddir ≤ 2000) :
    classifyDirectDir env cfg ddir = DirOutcome.toSearch := by
  have h1 : (cfg.disable_unc_copybooks_directories && env.isNetworkPath ddir) = false := by
    by_cases hs : cfg.disable_unc_copybooks_directories = true
    · by_cases hn : env.isNetworkPath ddir = true
      · exact absurd ⟨hs, hn⟩ hunc
      · simp only [Bool.not_eq_true] at hn
        simp [hn]
    · simp only [Bool.not_eq_true] at hs
      simp [hs]
  simp [classifyDirectDir, h1, hdp, hdir, ht]

/-- A direct directory whose probe is slow or fails is classified
invalid. -/
theorem classify_direct_invalid (env : DirEnv) (cfg : SearchConfig) (ddir : String)
    (hunc : ¬(cfg.disable_unc_copybooks_directories = true ∧ env.isNetworkPath ddir = true))
    (hdp : env.isDirectPath ddir = true)
    (hbad : isDirectory env ddir = false ∨ 2000 < env.checkTimeMS ddir) :
    classifyDirectDir env cfg ddir = DirOutcome.toInvalid := by
  have h1 : (cfg.disable_unc_copybooks_directories && env.isNetworkPath ddir) = false := by
    by_cases hs : cfg.disable_unc_copybooks_directories = true
    · by_cases hn : env.isNetworkPath ddir = true
      · exact absurd ⟨hs, hn⟩ hunc
      · simp only [Bool.not_eq_true] at hn
        simp [hn]
    · simp only [Bool.not_eq_true] at hs
      simp [hs]
  rcases hbad with hnd | hslow
  · simp [classifyDirectDir, h1, hdp, hnd]
  · by_cases hd : isDirectory env ddir = true
    · have hnle : ¬(env.checkTimeMS ddir ≤ 2000) := Nat.not_le.mpr hslow
      simp [classifyDirectDir, h1, hdp, hd, hnle]
    · simp only [Bool.not_eq_true] at hd
      simp [classifyDirectDir, h1, hdp, hd]

/-- Membership in the final search list is membership in the raw list. -/
theorem mem_final_fst (env : DirEnv) (cfg : SearchConfig) (z : String) :
    z ∈ (initExtensionSearchPaths env cfg).1 ↔ z ∈ rawFileSearchDirectory env cfg := by
  simp only [initExtensionSearchPaths]
  exact mem_jsDedup _ z

/-- Membership in the final invalid list is membership in the raw list. -/
theorem mem_final_snd (env : DirEnv) (cfg : SearchConfig) (z : String) :
    z ∈ (initExtensionSearchPaths env cfg).2 ↔ z ∈ rawInvalidSearchDirectory env cfg := by
  simp only [initExtensionSearchPaths]
  exact mem_jsDedup _ z

/-- C1 (amended): a configured direct directory that is not excluded by
the UNC rule and whose existence check reports a directory within 2000ms
is added to the active search path; when the check takes strictly more
than 2000ms, the direct-path step does not add it (it is absent from the
step-1 search contribution) and it is recorded in the invalid-path list,
and it is absent from the whole active search path provided the same
path does not also arise from the workspace-relative step as a workspace
folder joined with a relative configured directory. -/
theorem claimC1 (env : DirEnv) (cfg : SearchConfig) (ddir : String)
    (hmem : ddir ∈ cfg.copybookdirs)
    (hunc : ¬(cfg.disable_unc_copybooks_directories = true ∧ env.isNetworkPath ddir = true))
    (hdp : env.isDirectPath ddir = true)
    (hdir : isDirectory env ddir = true) :
    (env.checkTimeMS ddir ≤ 2000 → ddir ∈ (initExtensionSearchPaths env cfg).1) ∧
    (2000 < env.checkTimeMS ddir →
      ddir ∈ (initExtensionSearchPaths env cfg).2 ∧
      ddir ∉ step1SearchDirs env cfg ∧
      (ddir ∉ step2SearchDirs env cfg → ddir ∉ (initExtensionSearchPaths env cfg).1)) := by
  constructor
  · intro ht
    rw [mem_final_fst]
    have hc := classify_fast_dir env cfg ddir hunc hdp hdir ht
    exact List.mem_append_left _ ((mem_step1SearchDirs env cfg ddir).2 ⟨hmem, hc⟩)
  · intro hslow
    have hc := classify_direct_invalid env cfg ddir hunc hdp (Or.inr hslow)
    refine ⟨?_, ?_, ?_⟩
    · rw [mem_final_snd]
      exact List.mem_append_left _ ((mem_step1InvalidDirs env cfg ddir).2 ⟨hmem, hc⟩)
    · intro hmem1
      have := ((mem_step1SearchDirs env cfg ddir).1 hmem1).2
      rw [hc] at this
      exact DirOutcome.noConfusion this
    · intro hstep2 hfin
      rcases List.mem_append.mp ((mem_final_fst env cfg ddir).1 hfin) with h1 | h2
      · have := ((mem_step1SearchDirs env cfg ddir).1 h1).2
        rw [hc] at this
        exact DirOutcome.noConfusion this
      · exact hstep2 h2

/-- C1 counterexample: in the run `cexEnv`/`cexCfg`, the configured
direct directory `/w/sub` takes 3000ms to check, yet it ends up in the
active search path, because the workspace folder `/w` joined with the
relative configured directory `sub` yields the same path in step 2. -/
theorem claimC1_cex :
    cexEnv.isDirectPath "/w/sub" = true ∧
    "/w/sub" ∈ cexCfg.copybookdirs ∧
    2000 < cexEnv.checkTimeMS "/w/sub" ∧
    isDirectory cexEnv "/w/sub" = true ∧
    "/w/sub" ∈ (initExtensionSearchPaths cexEnv cexCfg).1 := by
  decide

/-- Witness for C1 at a concrete run: the fast directory is kept, the
slow one dropped to the invalid list. -/
theorem claimC1_witness :
    "/fast" ∈ (initExtensionSearchPaths wDirEnv wDirCfg).1 ∧
    "/slow" ∈ (initExtensionSearchPaths wDirEnv wDirCfg).2 ∧
    "/slow" ∉ (initExtensionSearchPaths wDirEnv wDirCfg).1 := by
  refine ⟨(claimC1 wDirEnv wDirCfg "/fast" (by decide) (by decide) (by decide)
    (by decide)).1 (by decide), ?_, ?_⟩
  · exact ((claimC1 wDirEnv wDirCfg "/slow" (by decide) (by decide) (by decide)
      (by decide)).2 (by decide)).1
  · exact ((claimC1 wDirEnv wDirCfg "/slow" (by decide) (by decide) (by decide)
      (by decide)).2 (by decide)).2.2 (by decide)

/-- C6 (amended): with the disable setting on, a UNC configured
directory is recorded in the invalid list and its classification is
invalid for every filesystem state, so no existence check can influence
it; every direct configured path lands in at least one of the two lists,
and in exactly one provided the same path does not also arise from the
workspace-relative step. -/
theorem claimC6 (env : DirEnv) (cfg : SearchConfig) (ddir : String)
    (hmem : ddir ∈ cfg.copybookdirs) :
    (cfg.disable_unc_copybooks_directories = true → env.isNetworkPath ddir = true →
      ddir ∈ (initExtensionSearchPaths env cfg).2 ∧
      ∀ (st : String → Option StatKind) (tm : String → Nat),
        classifyDirectDir { env with stat := st, checkTimeMS := tm } cfg ddir =
          DirOutcome.toInvalid) ∧
    (env.isDirectPath ddir = true →
      (ddir ∈ (initExtensionSearchPaths env cfg).1 ∨
        ddir ∈ (initExtensionSearchPaths env cfg).2) ∧
      (ddir ∉ step2SearchDirs env cfg → ddir ∉ step2InvalidDirs env cfg →
        ¬(ddir ∈ (initExtensionSearchPaths env cfg).1 ∧
          ddir ∈ (initExtensionSearchPaths env cfg).2))) := by
  constructor
  · intro hset hnet
    constructor
    · rw [mem_final_snd]
      exact List.mem_append_left _
        ((mem_step1InvalidDirs env cfg ddir).2 ⟨hmem, classify_unc env cfg ddir hset hnet⟩)
    · intro st tm
      exact classify_unc { env with stat := st, checkTimeMS := tm } cfg ddir hset hnet
  · intro hdp
    constructor
    · by_cases hunc : cfg.disable_unc_copybooks_directories = true ∧ env.isNetworkPath ddir = true
      · right
        rw [mem_final_snd]
        exact List.mem_append_left _
          ((mem_step1InvalidDirs env cfg ddir).2 ⟨hmem, classify_unc env cfg ddir hunc.1 hunc.2⟩)
      · by_cases hd : isDirectory env ddir = true
        · by_cases ht : env.checkTimeMS ddir ≤ 2000
          · left
            rw [mem_final_fst]
            exact List.mem_append_left _
              ((mem_step1SearchDirs env cfg ddir).2
                ⟨hmem, classify_fast_dir env cfg ddir hunc hdp hd ht⟩)
          · right
            rw [mem_final_snd]
            exact List.mem_append_left _
              ((mem_step1InvalidDirs env cfg ddir).2
                ⟨hmem, classify_direct_invalid env cfg ddir hunc hdp
                  (Or.inr (Nat.not_le.mp ht))⟩)
        · right
          simp only [Bool.not_eq_true] at hd
          rw [mem_final_snd]
          exact List.mem_append_left _
            ((mem_step1InvalidDirs env cfg ddir).2
              ⟨hmem, classify_direct_invalid env cfg ddir hunc hdp (Or.inl hd)⟩)
    · rintro hs2 hi2 ⟨hin1, hin2⟩
      rcases List.mem_append.mp ((mem_final_fst env cfg ddir).1 hin1) with ha | ha
      · rcases List.mem_append.mp ((mem_final_snd env cfg ddir).1 hin2) with hb | hb
        · have h1 := ((mem_step1SearchDirs env cfg ddir).1 ha).2
          have h2 := ((mem_step1InvalidDirs env cfg ddir).1 hb).2
          rw [h1] at h2
          exact DirOutcome.noConfusion h2
        · exact hi2 hb
      · exact hs2 ha

/-- C6 counterexample: in the run `cexEnv`/`cexCfg` the configured
direct directory `/w/sub` ends up in both the active search path and the
invalid list, so it is not placed in exactly one of the two. -/
theorem claimC6_cex :
    cexEnv.isDirectPath "/w/sub" = true ∧
    "/w/sub" ∈ cexCfg.copybookdirs ∧
    "/w/sub" ∈ (initExtensionSearchPaths cexEnv cexCfg).1 ∧
    "/w/sub" ∈ (initExtensionSearchPaths cexEnv cexCfg).2 := by
  decide

/-- Witness for C6 at concrete runs: a UNC directory is segregated to
the invalid list under the disable setting, and a direct directory lands
in one of the two lists. -/
theorem claimC6_witness :
    "\\\\srv\\share" ∈ (initExtensionSearchPaths wUncEnv wUncCfg).2 ∧
    ("/fast" ∈ (initExtensionSearchPaths wDirEnv wDirCfg).1 ∨
      "/fast" ∈ (initExtensionSearchPaths wDirEnv wDirCfg).2) := by
  constructor
  · exact ((claimC6 wUncEnv wUncCfg "\\\\srv\\share" (by decide)).1 (by decide)
      (by decide)).1
  · exact ((claimC6 wDirEnv wDirCfg "/fast" (by decide)).2 (by decide)).1

/-- C7: a failing stat makes `isDirectory` and `isFile` return false
rather than throw; a direct configured directory whose stat fails is
recorded in the invalid-path list, and the step-1 processing of the
remaining directories is unaffected by its presence. -/
theorem claimC7 (env : DirEnv) (d : String) (hstat : env.stat d = none) :
    isDirectory env d = false ∧ isFile env d = false ∧
    ∀ cfg : SearchConfig, d ∈ cfg.copybookdirs →
      ¬(cfg.disable_unc_copybooks_directories = true ∧ env.isNetworkPath d = true) →
      env.isDirectPath d = true →
      d ∈ (initExtensionSearchPaths env cfg).2 ∧
      ∀ pre post : List String,
        step1SearchDirs env { cfg with copybookdirs := pre ++ d :: post } =
          step1SearchDirs env { cfg with copybookdirs := pre } ++
            step1SearchDirs env { cfg with copybookdirs := post } ∧
        step1InvalidDirs env { cfg with copybookdirs := pre ++ d :: post } =
          step1InvalidDirs env { cfg with copybookdirs := pre } ++
            d :: step1InvalidDirs env { cfg with copybookdirs := post } := by
  have hnd : isDirectory env d = false := by
    simp [isDirectory, hstat]
  have hnf : isFile env d = false := by
    simp [isFile, hstat]
  refine ⟨hnd, hnf, ?_⟩
  intro cfg hmem hunc hdp
  have hc : classifyDirectDir env cfg d = DirOutcome.toInvalid :=
    classify_direct_invalid env cfg d hunc hdp (Or.inl hnd)
  constructor
  · rw [mem_final_snd]
    exact List.mem_append_left _ ((mem_step1InvalidDirs env cfg d).2 ⟨hmem, hc⟩)
  · intro pre post
    have hcfg : ∀ (l : List String) (z : String),
        classifyDirectDir env { cfg with copybookdirs := l } z =
          classifyDirectDir env cfg z :=
      fun _ _ => rfl
    constructor
    · simp [step1SearchDirs, hcfg, List.filter_append, List.filter_cons, hc]
    · simp [step1InvalidDirs, hcfg, List.filter_append, List.filter_cons, hc]

/-- Witness for C7 at a concrete run: the unreachable directory is
reported not-a-directory and lands in the invalid list. -/
theorem claimC7_witness :
    isDirectory wFailEnv "/gone" = false ∧ isFile wFailEnv "/gone" = false ∧
    "/gone" ∈ (initExtensionSearchPaths wFailEnv wFailCfg).2 := by
  have h := claimC7 wFailEnv "/gone" (by decide)
  exact ⟨h.1, h.2.1, (h.2.2 wFailCfg (by decide) (by decide) (by decide)).1⟩

/-- C10: both final lists are duplicate-free, contain the same paths as
the raw pre-filter lists, and list distinct surviving paths in the
relative order of their first occurrences. -/
theorem claimC10 (env : DirEnv) (cfg : SearchConfig) :
    (initExtensionSearchPaths env cfg).1.Nodup ∧
    (initExtensionSearchPaths env cfg).2.Nodup ∧
    (∀ z, z ∈ (initExtensionSearchPaths env cfg).1 ↔
      z ∈ rawFileSearchDirectory env cfg) ∧
    (∀ z, z ∈ (initExtensionSearchPaths env cfg).2 ↔
      z ∈ rawInvalidSearchDirectory env cfg) ∧
    (∀ x y, x ≠ y →
      x ∈ (initExtensionSearchPaths env cfg).1 →
      y ∈ (initExtensionSearchPaths env cfg).1 →
      ((rawFileSearchDirectory env cfg).indexOf x <
          (rawFileSearchDirectory env cfg).indexOf y ↔
        (initExtensionSearchPaths env cfg).1.indexOf x <
          (initExtensionSearchPaths env cfg).1.indexOf y)) ∧
    (∀ x y, x ≠ y →
      x ∈ (initExtensionSearchPaths env cfg).2 →
      y ∈ (initExtensionSearchPaths env cfg).2 →
      ((rawInvalidSearchDirectory env cfg).indexOf x <
          (rawInvalidSearchDirectory env cfg).indexOf y ↔
        (initExtensionSearchPaths env cfg).2.indexOf x <
          (initExtensionSearchPaths env cfg).2.indexOf y)) := by
  refine ⟨jsDedup_nodup _, jsDedup_nodup _, mem_final_fst env cfg, mem_final_snd env cfg,
    ?_, ?_⟩
  · intro x y hxy hx hy
    exact jsDedup_indexOf_lt _ x y hxy hx hy
  · intro x y hxy hx hy
    exact jsDedup_indexOf_lt _ x y hxy hx hy

/-- Witness for C10 at a concrete run with a duplicate in the raw list:
order of first occurrences is preserved. -/
theorem claimC10_witness :
    (initExtensionSearchPaths cexEnv cexCfg).1.Nodup ∧
    ((rawFileSearchDirectory cexEnv cexCfg).indexOf "/w" <
        (rawFileSearchDirectory cexEnv cexCfg).indexOf "/w/sub" ↔
      (initExtensionSearchPaths cexEnv cexCfg).1.indexOf "/w" <
        (initExtensionSearchPaths cexEnv cexCfg).1.indexOf "/w/sub") := by
  have h := claimC10 cexEnv cexCfg
  exact ⟨h.1, h.2.2.2.2.1 "/w" "/w/sub" (by decide) (by decide) (by decide)⟩

/-- Appending a common suffix is cancellative on strings. -/
theorem string_append_right_cancel (a b s : String) (h : a ++ s = b ++ s) : a = b := by
  apply String.ext
  have hd : a.data ++ s.data = b.data ++ s.data := by
    have h2 := congrArg String.data h
    rwa [String.data_append, String.data_append] at h2
  exact List.append_cancel_right hd

/-- Two equal paragraph diagnostics come from the same declared name. -/
theorem makeParagraphDiag_key_eq (k1 k2 : String) (t1 t2 : Token)
    (h : makeParagraphDiag k1 t1 = makeParagraphDiag k2 t2) : k1 = k2 := by
  have hm : k1 ++ " paragraph is not referenced" = k2 ++ " paragraph is not referenced" :=
    congrArg Diagnostic.message h
  exact string_append_right_cancel k1 k2 _ hm

/-- Two equal section diagnostics come from the same declared name. -/
theorem makeSectionDiag_key_eq (k1 k2 : String) (t1 t2 : Token)
    (h : makeSectionDiag k1 t1 = makeSectionDiag k2 t2) : k1 = k2 := by
  have hm : k1 ++ " section is not referenced" = k2 ++ " section is not referenced" :=
    congrArg Diagnostic.message h
  exact string_append_right_cancel k1 k2 _ hm

/-- Outcome of one paragraph-loop iteration. -/
theorem paragraphDiagEntry_eq_some (refs : SharedSourceReferences) (key : String)
    (token : Token) (fd : String × Diagnostic) :
    paragraphDiagEntry refs (key, token) = some fd ↔
      jsToLowerCase key ∉ refs.targetReferences ∧
        fd = (token.filename, makeParagraphDiag key token) := by
  unfold paragraphDiagEntry
  by_cases h : jsToLowerCase key ∈ refs.targetReferences
  · simp [h]
  · simp [h, eq_comm]

/-- Outcome of one section-loop iteration. -/
theorem sectionDiagEntry_eq_some (refs : SharedSourceReferences) (key : String)
    (token : Token) (fd : String × Diagnostic) :
    sectionDiagEntry refs (key, token) = some fd ↔
      token.inProcedureDivision = true ∧
        jsToLowerCase key ∉ refs.targetReferences ∧
        fd = (token.filename, makeSectionDiag key token) := by
  unfold sectionDiagEntry
  by_cases hp : token.inProcedureDivision = true
  · by_cases h : jsToLowerCase key ∈ refs.targetReferences
    · simp [hp, h]
    · simp [hp, h, eq_comm]
  · simp only [Bool.not_eq_true] at hp
    simp [hp]

/-- The paragraph loop emits the diagnostic of a declared paragraph
exactly when the lowered name is missing from the reference set. -/
theorem paragraph_flag_iff (qp : QuickParseData) (refs : SharedSourceReferences)
    (key : String) (token : Token) (hmem : (key, token) ∈ qp.paragraphs) :
    (token.filename, makeParagraphDiag key token) ∈ paragraphDiags qp refs ↔
      jsToLowerCase key ∉ refs.targetReferences := by
  unfold paragraphDiags
  rw [List.mem_filterMap]
  constructor
  · rintro ⟨⟨k2, t2⟩, hmem2, hsome⟩
    rw [paragraphDiagEntry_eq_some] at hsome
    obtain ⟨hnot, heq⟩ := hsome
    have hkey : k2 = key :=
      makeParagraphDiag_key_eq k2 key t2 token (congrArg Prod.snd heq).symm
    rwa [hkey] at hnot
  · intro hnot
    exact ⟨(key, token), hmem, (paragraphDiagEntry_eq_some refs key token _).2 ⟨hnot, rfl⟩⟩

/-- The section loop emits the diagnostic of a declared
procedure-division section exactly when the lowered name is missing from
the reference set. -/
theorem section_flag_iff (qp : QuickParseData) (refs : SharedSourceReferences)
    (key : String) (token : Token) (hmem : (key, token) ∈ qp.sections)
    (hproc : token.inProcedureDivision = true) :
    (token.filename, makeSectionDiag key token) ∈ sectionDiags qp refs ↔
      jsToLowerCase key ∉ refs.targetReferences := by
  unfold sectionDiags
  rw [List.mem_filterMap]
  constructor
  · rintro ⟨⟨k2, t2⟩, hmem2, hsome⟩
    rw [sectionDiagEntry_eq_some] at hsome
    obtain ⟨hp2, hnot, heq⟩ := hsome
    have hkey : k2 = key :=
      makeSectionDiag_key_eq k2 key t2 token (congrArg Prod.snd heq).symm
    rwa [hkey] at hnot
  · intro hnot
    exact ⟨(key, token), hmem,
      (sectionDiagEntry_eq_some refs key token _).2 ⟨hproc, hnot, rfl⟩⟩

/-- Every section-loop emission originates from a declared section whose
token lies in the procedure division. -/
theorem mem_sectionDiags (qp : QuickParseData) (refs : SharedSourceReferences)
    (f : String) (d : Diagnostic) (h : (f, d) ∈ sectionDiags qp refs) :
    ∃ key token, (key, token) ∈ qp.sections ∧ token.inProcedureDivision = true ∧
      f = token.filename ∧ d = makeSectionDiag key token := by
  unfold sectionDiags at h
  rw [List.mem_filterMap] at h
  obtain ⟨⟨k2, t2⟩, hmem2, hsome⟩ := h
  rw [sectionDiagEntry_eq_some] at hsome
  obtain ⟨hp2, hnot, heq⟩ := hsome
  exact ⟨k2, t2, hmem2, hp2, congrArg Prod.fst heq, congrArg Prod.snd heq⟩

/-- C2: for a declared paragraph, `updateDiagnostics` emits its
is-not-referenced diagnostic exactly when the lowercased name is absent
from `targetReferences`; in particular a name present there (as when a
PERFORM references it) is never flagged. The full emission sequence is
the paragraph loop followed by the section loop. -/
theorem claimC2 (qp : QuickParseData) (refs : SharedSourceReferences) (key : String)
    (token : Token) (hmem : (key, token) ∈ qp.paragraphs) :
    ((token.filename, makeParagraphDiag key token) ∈ paragraphDiags qp refs ↔
      jsToLowerCase key ∉ refs.targetReferences) ∧
    updateDiagnosticsList qp refs = paragraphDiags qp refs ++ sectionDiags qp refs :=
  ⟨paragraph_flag_iff qp refs key token hmem, rfl⟩

/-- Witness for C2 at a concrete run: the referenced paragraph is not
flagged, the unreferenced one is. -/
theorem claimC2_witness :
    ("prog.cbl", makeParagraphDiag "Para-1" cexToken) ∉ paragraphDiags cexQp wRefs ∧
    ("prog.cbl", makeParagraphDiag "Para-1" cexToken) ∈ paragraphDiags cexQp cexRefs := by
  constructor
  · intro h2
    exact absurd (by decide) ((claimC2 cexQp wRefs "Para-1" cexToken (by decide)).1.1 h2)
  · exact (claimC2 cexQp cexRefs "Para-1" cexToken (by decide)).1.2 (by decide)

/-- C3: the unreferenced decision is taken on the lowercased name for
both loops, so declarations differing only in letter case are flagged or
spared together. -/
theorem claimC3 (k1 k2 : String) (hcase : jsToLowerCase k1 = jsToLowerCase k2) :
    (∀ (qp1 qp2 : QuickParseData) (refs : SharedSourceReferences) (t1 t2 : Token),
      (k1, t1) ∈ qp1.paragraphs → (k2, t2) ∈ qp2.paragraphs →
      ((t1.filename, makeParagraphDiag k1 t1) ∈ paragraphDiags qp1 refs ↔
        (t2.filename, makeParagraphDiag k2 t2) ∈ paragraphDiags qp2 refs)) ∧
    (∀ (qp1 qp2 : QuickParseData) (refs : SharedSourceReferences) (t1 t2 : Token),
      (k1, t1) ∈ qp1.sections → (k2, t2) ∈ qp2.sections →
      t1.inProcedureDivision = true → t2.inProcedureDivision = true →
      ((t1.filename, makeSectionDiag k1 t1) ∈ sectionDiags qp1 refs ↔
        (t2.filename, makeSectionDiag k2 t2) ∈ sectionDiags qp2 refs)) := by
  constructor
  · intro qp1 qp2 refs t1 t2 h1 h2
    rw [paragraph_flag_iff qp1 refs k1 t1 h1, paragraph_flag_iff qp2 refs k2 t2 h2, hcase]
  · intro qp1 qp2 refs t1 t2 h1 h2 hp1 hp2
    rw [section_flag_iff qp1 refs k1 t1 h1 hp1, section_flag_iff qp2 refs k2 t2 h2 hp2,
      hcase]

/-- Witness for C3 at a concrete run: the same paragraph name in two
letter cases is flagged in both tables alike. -/
theorem claimC3_witness :
    ("prog.cbl", makeParagraphDiag "Para-1" cexToken) ∈ paragraphDiags cexQp cexRefs ↔
    ("prog.cbl", makeParagraphDiag "PARA-1" cexToken) ∈ paragraphDiags wQp2 cexRefs :=
  (claimC3 "Para-1" "PARA-1" (by decide)).1 cexQp wQp2 cexRefs cexToken cexToken
    (by decide) (by decide)

/-- C4 (amended): every diagnostic emitted by `updateDiagnostics`
carries the structured code `noref(name)` of a declared name, and the
quick-fix provider produces a comment-out action exactly for diagnostics
whose code starts with `noref` or whose code is undefined; only defined
codes not starting with `noref` are skipped. -/
theorem claimC4 :
    (∀ (qp : QuickParseData) (refs : SharedSourceReferences) (fd : String × Diagnostic),
      fd ∈ updateDiagnosticsList qp refs →
      ∃ key, fd.2.code = some ("noref(" ++ key ++ ")") ∧
        ((∃ t, (key, t) ∈ qp.paragraphs) ∨ (∃ t, (key, t) ∈ qp.sections))) ∧
    (∀ d : Diagnostic, (actionFor d).isSome = true ↔
      (d.code = none ∨ ∃ c, d.code = some c ∧ jsStartsWith c "noref" = true)) ∧
    (∀ diags : List Diagnostic, provideCodeActions diags = diags.filterMap actionFor) := by
  refine ⟨?_, ?_, fun _ => rfl⟩
  · intro qp refs fd hfd
    rcases List.mem_append.mp hfd with h | h
    · unfold paragraphDiags at h
      rw [List.mem_filterMap] at h
      obtain ⟨⟨k2, t2⟩, hmem2, hsome⟩ := h
      rw [paragraphDiagEntry_eq_some] at hsome
      obtain ⟨hnot, heq⟩ := hsome
      refine ⟨k2, ?_, Or.inl ⟨t2, hmem2⟩⟩
      rw [heq]
      rfl
    · obtain ⟨k2, t2, hmem2, hp2, hf, hd⟩ :=
        mem_sectionDiags qp refs fd.1 fd.2 h
      refine ⟨k2, ?_, Or.inr ⟨t2, hmem2⟩⟩
      rw [hd]
      rfl
  · intro d
    unfold actionFor
    rcases hcode : d.code with _ | c
    · simp
    · by_cases hs : jsStartsWith c "noref" = true
      · simp [hs]
      · simp only [Bool.not_eq_true] at hs
        simp [hs]

/-- C4 counterexample: a diagnostic whose code is undefined, so in
particular does not start with `noref`, still receives a comment-out
action. -/
theorem claimC4_cex :
    cexDiagNoCode.code = none ∧
    provideCodeActions [cexDiagNoCode] =
      [{ title := "Comment out " ++ cexDiagNoCode.message, forCode := none }] := by
  decide

/-- Witness for C4 at a concrete run: the emitted paragraph diagnostic
carries a noref code of a declared name, and the code-free diagnostic
gets an action. -/
theorem claimC4_witness :
    (∃ key, (("prog.cbl", makeParagraphDiag "Para-1" cexToken) :
        String × Diagnostic).2.code = some ("noref(" ++ key ++ ")") ∧
      ((∃ t, (key, t) ∈ cexQp.paragraphs) ∨ (∃ t, (key, t) ∈ cexQp.sections))) ∧
    ((actionFor cexDiagNoCode).isSome = true ↔
      (cexDiagNoCode.code = none ∨
        ∃ c, cexDiagNoCode.code = some c ∧ jsStartsWith c "noref" = true)) := by
  exact ⟨claimC4.1 cexQp cexRefs _ (by decide), claimC4.2.1 cexDiagNoCode⟩

/-- C5 (amended): every section flagged as unreferenced has a token
inside the procedure division; paragraphs, by contrast, are flagged
without consulting the flag, so the paragraph-loop outcome is unchanged
under any value of `inProcedureDivision`. -/
theorem claimC5 :
    (∀ (qp : QuickParseData) (refs : SharedSourceReferences) (f : String)
      (d : Diagnostic), (f, d) ∈ sectionDiags qp refs →
      ∃ key token, (key, token) ∈ qp.sections ∧ token.inProcedureDivision = true ∧
        f = token.filename ∧ d = makeSectionDiag key token) ∧
    (∀ (refs : SharedSourceReferences) (key : String) (token : Token) (b : Bool),
      paragraphDiagEntry refs (key, { token with inProcedureDivision := b }) =
        paragraphDiagEntry refs (key, token)) := by
  constructor
  · exact fun qp refs f d h => mem_sectionDiags qp refs f d h
  · intro refs key token b
    cases token
    rfl

/-- C5 counterexample: a paragraph whose token is outside the procedure
division is still flagged as unreferenced. -/
theorem claimC5_cex :
    ("prog.cbl", makeParagraphDiag "Para-1" cexToken) ∈ updateDiagnosticsList cexQp cexRefs ∧
    cexToken.inProcedureDivision = false ∧
    ("Para-1", cexToken) ∈ cexQp.paragraphs := by
  decide

/-- Witness for C5 at a concrete run: the flagged section is traced back
to a procedure-division declaration. -/
theorem claimC5_witness :
    ∃ key token, (key, token) ∈ wSecQp.sections ∧ token.inProcedureDivision = true ∧
      "prog.cbl" = token.filename ∧
      makeSectionDiag "Sec-1" wSecToken = makeSectionDiag key token :=
  claimC5.1 wSecQp cexRefs "prog.cbl" (makeSectionDiag "Sec-1" wSecToken) (by decide)

/-- A cached parse for the same filename survives the eviction step. -/
theorem clearIfRenamed_some (s : UsageState) (document : VsDocument)
    (qp : QuickParseData) (hcur : s.current = some qp)
    (hfn : qp.filename = document.fileName) :
    clearIfRenamed s document = some qp := by
  simp [clearIfRenamed, hcur, hfn]

/-- When the cached parse matches the document by filename and version,
`setupCOBOLQuickParse` leaves the state untouched. -/
theorem setup_no_rebuild (env : ScanEnv) (s : UsageState) (document : VsDocument)
    (qp : QuickParseData) (hcur : s.current = some qp)
    (hfn : qp.filename = document.fileName)
    (hver : s.currentVersion = some document.version) :
    setupCOBOLQuickParse env s document = s := by
  have h1 := clearIfRenamed_some s document qp hcur hfn
  unfold setupCOBOLQuickParse
  rw [if_neg (by simp [h1, hver])]
  rw [h1, ← hcur]

/-- `setupCOBOLQuickParse` either leaves the state untouched or replaces
all three fields with a fresh parse of the document. -/
theorem setup_result (env : ScanEnv) (s : UsageState) (document : VsDocument) :
    setupCOBOLQuickParse env s document = s ∨
    setupCOBOLQuickParse env s document =
      { current := some (mkQuickParse env document)
        currentVersion := some document.version
        sourceRefs := some (mkSharedSourceReferences env document) } := by
  unfold setupCOBOLQuickParse
  by_cases hc : clearIfRenamed s document = none ∨
      s.currentVersion ≠ some document.version
  · right
    rw [if_pos hc]
  · left
    rw [if_neg hc]
    push_neg at hc
    obtain ⟨hcur, hver⟩ := hc
    rcases hs : s.current with _ | qp
    · exact absurd (by simp [clearIfRenamed, hs]) hcur
    · by_cases hfn : qp.filename = document.fileName
      · rw [clearIfRenamed_some s document qp hs hfn, ← hs]
      · exact absurd (by simp [clearIfRenamed, hs, hfn]) hcur

/-- C8: when the cached parse matches the document by filename and
version, `setupCOBOLQuickParse` reuses parse, version and reference set
unchanged; and running it twice on the same document gives the same
state as running it once, so two consecutive scans of unchanged source
yield identical symbol tables. -/
theorem claimC8 (env : ScanEnv) (s : UsageState) (document : VsDocument) :
    (∀ qp, s.current = some qp → qp.filename = document.fileName →
      s.currentVersion = some document.version →
      setupCOBOLQuickParse env s document = s) ∧
    setupCOBOLQuickParse env (setupCOBOLQuickParse env s document) document =
      setupCOBOLQuickParse env s document := by
  constructor
  · intro qp hcur hfn hver
    exact setup_no_rebuild env s document qp hcur hfn hver
  · rcases setup_result env s document with h | h
    · rw [h]
      exact h
    · rw [h]
      exact setup_no_rebuild env _ document (mkQuickParse env document) rfl rfl rfl

/-- Witness for C8 at a concrete run: the matching state is reused
unchanged. -/
theorem claimC8_witness :
    setupCOBOLQuickParse wScanEnv wState wDocument = wState :=
  (claimC8 wScanEnv wState wDocument).1 (mkQuickParse wScanEnv wDocument)
    (by decide) (by decide) (by decide)

/-- C9: the metadata cache is loaded at activation exactly when a cache
directory is configured non-null and non-empty, and the caches are saved
at deactivation exactly when caching is enabled; with caching disabled,
deactivation performs no cache operation. -/
theorem claimC9 (cfg : CacheConfig) :
    (∀ d, cfg.cacheDirectory = some d → 0 < d.length →
      activateCacheOps cfg =
        [CacheOp.loadGlobalSymbolCaches, CacheOp.loadGlobalFileCache]) ∧
    (cfg.cacheDirectory = none → activateCacheOps cfg = []) ∧
    (∀ d, cfg.cacheDirectory = some d → d.length = 0 → activateCacheOps cfg = []) ∧
    (cfg.cachingEnabled = true → deactivateCacheOps cfg = [CacheOp.saveGlobalCaches]) ∧
    (cfg.cachingEnabled = false → deactivateCacheOps cfg = []) := by
  refine ⟨?_, ?_, ?_, ?_, ?_⟩
  · intro d hd hlen
    simp [activateCacheOps, hd, hlen]
  · intro hd
    simp [activateCacheOps, hd]
  · intro d hd hlen
    simp [activateCacheOps, hd, hlen]
  · intro he
    simp [deactivateCacheOps, he]
  · intro he
    simp [deactivateCacheOps, he]

/-- Witness for C9 at a concrete run: with a configured directory and
caching enabled, the caches are loaded once and saved once. -/
theorem claimC9_witness :
    activateCacheOps wCacheCfg =
      [CacheOp.loadGlobalSymbolCaches, CacheOp.loadGlobalFileCache] ∧
    deactivateCacheOps wCacheCfg = [CacheOp.saveGlobalCaches] :=
  ⟨(claimC9 wCacheCfg).1 "/cachedir" rfl (by decide),
    (claimC9 wCacheCfg).2.2.2.1 rfl⟩

end VsCobol
